import Mathlib

/-!
Shallow embedding of the gallery-wall application core (src/src/App.tsx):
the room state store (two per-room collections of placed artworks), the
placement / drag engine (drop, click placement, mouse-move repositioning,
removal, frame selection, room switching) and the washi-tape color
derivation.  Coordinates are modelled as `Int` (CSS pixel positions may be
negative before clamping), image channels as `Nat` (0..255 bytes from
`ImageData`), and each `Math.random()` draw as an explicit rational
parameter `u` with `0 ≤ u < 1`.
-/

/-- Frame choice of a placed artwork (`'none' | 'plain' | 'ornate' | 'washi'`). -/
inductive Frame where
  | none
  | plain
  | ornate
  | washi
  deriving Repr, DecidableEq

/-- The two rooms. -/
inductive Room where
  | gallery
  | bedroom
  deriving Repr, DecidableEq

/-- Catalog artwork record (interface `Artwork` in App.tsx). -/
structure Artwork where
  id : String
  artist : String
  artistLink : Option String := Option.none
  title : String
  titleLink : Option String := Option.none
  year : String
  image : String
  width : Int
  height : Int
  didYouKnow : Option String := Option.none
  deriving Repr, DecidableEq

/-- Placed artwork record (interface `PlacedArtwork extends Artwork`):
the catalog fields plus position and decorative attributes. -/
structure PlacedArtwork where
  art : Artwork
  x : Int
  y : Int
  frame : Option Frame := Option.none
  washiRotation : Option Bool := Option.none
  washiColor : Option String := Option.none
  woodTexture : Option Int := Option.none
  ornateVariation : Option Int := Option.none
  deriving Repr, DecidableEq

/-- The mutable application state relevant to placement
(the `useState` cells of `App`, darkMode excluded). -/
structure AppState where
  currentRoom : Room
  galleryArtworks : List PlacedArtwork
  bedroomArtworks : List PlacedArtwork
  draggedArtwork : Option Artwork
  draggingId : Option String
  dragOffset : Int × Int
  deriving Repr, DecidableEq

/-- `placedArtworks`: the active room's collection. -/
def AppState.placedArtworks (s : AppState) : List PlacedArtwork :=
  match s.currentRoom with
  | .gallery => s.galleryArtworks
  | .bedroom => s.bedroomArtworks

/-- `setPlacedArtworks`: replace the active room's collection. -/
def AppState.setPlacedArtworks (s : AppState) (l : List PlacedArtwork) : AppState :=
  match s.currentRoom with
  | .gallery => { s with galleryArtworks := l }
  | .bedroom => { s with bedroomArtworks := l }

/-- Reserved furniture band at the bottom of each room: the gallery bench is
160px, the bedroom image is 400px (the literals in `handleMouseMove`,
`handleDrop` and the catalog `onClick`). -/
def furnitureHeight : Room → Int
  | .gallery => 160
  | .bedroom => 400

/-- `Math.floor(Math.random() * 3) + 1` applied to a unit draw `u`. -/
def randVariant (u : ℚ) : Int := ⌊u * 3⌋ + 1

/-- The fixed washi palette of `getRandomWashiColor` (pink, peach, light
blue, light yellow, lavender, light orange). -/
def washiPalette : List (Nat × Nat × Nat) :=
  [(255, 182, 193), (255, 180, 120), (180, 220, 255),
   (255, 240, 120), (220, 180, 255), (255, 200, 140)]

/-- The rgba template used by every tape color the app produces:
alpha is the literal 0.8. -/
def mkRgba (r g b : Nat) : String :=
  "rgba(" ++ toString r ++ ", " ++ toString g ++ ", " ++ toString b ++ ", 0.8)"

/-- `getRandomWashiColor`: pick `colors[Math.floor(Math.random() * colors.length)]`,
with the draw modelled by `u`. -/
def getRandomWashiColor (u : ℚ) : String :=
  let c := washiPalette.getD (⌊u * 6⌋).toNat (0, 0, 0)
  mkRgba c.1 c.2.1 c.2.2

/-- `saturation = max === 0 ? 0 : (max - min) / max` over the sampled channels. -/
def saturationOf (r g b : Nat) : ℚ :=
  let mx : ℚ := max r (max g b)
  let mn : ℚ := min r (min g b)
  if mx = 0 then 0 else (mx - mn) / mx

/-- The saturated-sample transform of `getImageColor` (lines 117-140): too
gray falls back to the random palette, otherwise the dominant channel is
boosted by 100 into [200,255] and the others by 80 into [140,255]. -/
def sampledWashiColor (r g b : Nat) (u : ℚ) : String :=
  if saturationOf r g b < 3 / 10 then
    getRandomWashiColor u
  else if r ≥ g ∧ r ≥ b then
    mkRgba (max 200 (min 255 (r + 100))) (max 140 (min 255 (g + 80)))
      (max 140 (min 255 (b + 80)))
  else if g ≥ r ∧ g ≥ b then
    mkRgba (max 140 (min 255 (r + 80))) (max 200 (min 255 (g + 100)))
      (max 140 (min 255 (b + 80)))
  else
    mkRgba (max 140 (min 255 (r + 80))) (max 140 (min 255 (g + 80)))
      (max 200 (min 255 (b + 100)))

/-- Outcome of the asynchronous image fetch inside `getImageColor`:
either the decode failed (`img.onerror`), the 2D context was unavailable,
the pixel read threw (CORS/security), or a pixel was sampled. -/
inductive ImageFetch where
  | decodeError
  | ctxUnavailable
  | pixelBlocked
  | pixel (r g b : Nat)
  deriving Repr, DecidableEq

/-- `getImageColor` as a function of the fetch outcome and the palette
draw `u`: every branch resolves to exactly one color string. -/
def getImageColor (f : ImageFetch) (u : ℚ) : String :=
  match f with
  | .decodeError => getRandomWashiColor u
  | .ctxUnavailable => getRandomWashiColor u
  | .pixelBlocked => getRandomWashiColor u
  | .pixel r g b => sampledWashiColor r g b u

/-- `handleDragStart`: record the dragged catalog artwork and the constant
offset (50, 50). -/
def handleDragStart (artwork : Artwork) (s : AppState) : AppState :=
  { s with draggedArtwork := some artwork, dragOffset := (50, 50) }

/-- `handleMouseDown`: begin dragging a placed artwork, recording the offset
between the pointer and the artwork's current position. -/
def handleMouseDown (clientX clientY : Int) (artwork : PlacedArtwork) (s : AppState) : AppState :=
  { s with
    draggingId := some artwork.art.id
    dragOffset := (clientX - artwork.x, clientY - artwork.y) }

/-- `handleMouseMove`: reposition the dragged artwork.  `x` is clamped to
`≥ 0`; `y` is clamped to `≥ 0` and then, when the dragged artwork is found,
capped by `innerHeight - 60 - furniture - height*4` (the cap is applied
last). -/
def handleMouseMove (clientX clientY rectTop innerHeight : Int) (s : AppState) : AppState :=
  match s.draggingId with
  | Option.none => s
  | some did =>
    let x0 := clientX - s.dragOffset.1
    let y0 := clientY - s.dragOffset.2 - rectTop
    let y1 := max 0 y0
    let x1 := max 0 x0
    let y2 :=
      match s.placedArtworks.find? (fun a => a.art.id == did) with
      | some artwork =>
        let artworkHeight := artwork.art.height * 4
        let maxY := innerHeight - 60 - furnitureHeight s.currentRoom - artworkHeight
        min y1 maxY
      | Option.none => y1
    s.setPlacedArtworks (s.placedArtworks.map (fun a =>
      if a.art.id == did then { a with x := x1, y := y2 } else a))

/-- `handleMouseUp`: clear the active drag target. -/
def handleMouseUp (s : AppState) : AppState :=
  { s with draggingId := Option.none }

/-- The pre-clamp drop position of `handleDrop` (lines 208-209):
pointer minus canvas origin minus the recorded drag offset. -/
def dropRawPos (clientX clientY rectLeft rectTop : Int) (off : Int × Int) : Int × Int :=
  (clientX - rectLeft - off.1, clientY - rectTop - off.2)

/-- `handleDrop`: clamp the drop position (`y` is `min (max 0 y) maxY`,
`x` is `max 0 x`), then append a new record to the active room unless the
id is already placed in either room; the dragged artwork is cleared in
both cases.  `washiColor` is the resolved `getImageColor` result and
`uRot uWood uOrnate` the three `Math.random()` draws. -/
def handleDrop (clientX clientY rectLeft rectTop innerHeight : Int)
    (washiColor : String) (uRot uWood uOrnate : ℚ) (s : AppState) : AppState :=
  match s.draggedArtwork with
  | Option.none => s
  | some draggedArtwork =>
    let p := dropRawPos clientX clientY rectLeft rectTop s.dragOffset
    let artworkHeight := draggedArtwork.height * 4
    let maxY := innerHeight - 60 - furnitureHeight s.currentRoom - artworkHeight
    let y := min (max 0 p.2) maxY
    let x := max 0 p.1
    let isPlacedInGallery := s.galleryArtworks.any (fun a => a.art.id == draggedArtwork.id)
    let isPlacedInBedroom := s.bedroomArtworks.any (fun a => a.art.id == draggedArtwork.id)
    let s1 :=
      if !isPlacedInGallery && !isPlacedInBedroom then
        s.setPlacedArtworks (s.placedArtworks ++
          [{ art := draggedArtwork, x := x, y := y
             washiRotation := some (decide (uRot > 1 / 2))
             washiColor := some washiColor
             woodTexture := some (randVariant uWood)
             ornateVariation := some (randVariant uOrnate) }])
      else s
    { s1 with draggedArtwork := Option.none }

/-- The catalog item `onClick` handler: unless the id is already placed in
either room, append a record at `x = 100`,
`y = min 100 (max 0 (innerHeight - 60 - furniture - height*4))`. -/
def clickPlace (artwork : Artwork) (innerHeight : Int)
    (washiColor : String) (uRot uWood uOrnate : ℚ) (s : AppState) : AppState :=
  let isPlacedInGallery := s.galleryArtworks.any (fun a => a.art.id == artwork.id)
  let isPlacedInBedroom := s.bedroomArtworks.any (fun a => a.art.id == artwork.id)
  if !isPlacedInGallery && !isPlacedInBedroom then
    let artworkHeight := artwork.height * 4
    let maxY := innerHeight - 60 - furnitureHeight s.currentRoom - artworkHeight
    let y := min 100 (max 0 maxY)
    s.setPlacedArtworks (s.placedArtworks ++
      [{ art := artwork, x := 100, y := y
         washiRotation := some (decide (uRot > 1 / 2))
         washiColor := some washiColor
         woodTexture := some (randVariant uWood)
         ornateVariation := some (randVariant uOrnate) }])
  else s

/-- `removeArtwork`: filter the active room's collection by id. -/
def removeArtwork (id : String) (s : AppState) : AppState :=
  s.setPlacedArtworks (s.placedArtworks.filter (fun a => a.art.id != id))

/-- A frame-circle `onClick`: overwrite the frame of the given id in the
active room's collection (the ornate button is only rendered in the
gallery and the washi button only in the bedroom, both acting on the
active room). -/
def setFrame (id : String) (f : Frame) (s : AppState) : AppState :=
  match s.currentRoom with
  | .gallery =>
    { s with galleryArtworks := s.galleryArtworks.map (fun a =>
        if a.art.id == id then { a with frame := some f } else a) }
  | .bedroom =>
    { s with bedroomArtworks := s.bedroomArtworks.map (fun a =>
        if a.art.id == id then { a with frame := some f } else a) }

/-- The room-nav `onClick`: toggle the active room. -/
def switchRoom (s : AppState) : AppState :=
  { s with currentRoom :=
      match s.currentRoom with
      | .gallery => .bedroom
      | .bedroom => .gallery }

/-- One user-interaction step: every state mutation the app can perform. -/
inductive Step : AppState → AppState → Prop where
  | dragStart (a : Artwork) (s : AppState) : Step s (handleDragStart a s)
  | mouseDown (cx cy : Int) (a : PlacedArtwork) (s : AppState) :
      Step s (handleMouseDown cx cy a s)
  | mouseMove (cx cy rt ih : Int) (s : AppState) :
      Step s (handleMouseMove cx cy rt ih s)
  | mouseUp (s : AppState) : Step s (handleMouseUp s)
  | drop (cx cy rl rt ih : Int) (c : String) (ur uw uo : ℚ) (s : AppState) :
      Step s (handleDrop cx cy rl rt ih c ur uw uo s)
  | click (a : Artwork) (ih : Int) (c : String) (ur uw uo : ℚ) (s : AppState) :
      Step s (clickPlace a ih c ur uw uo s)
  | remove (id : String) (s : AppState) : Step s (removeArtwork id s)
  | frame (id : String) (f : Frame) (s : AppState) : Step s (setFrame id f s)
  | switch (s : AppState) : Step s (switchRoom s)

/-- The state at process start with no persisted snapshot: both rooms empty. -/
def initState : AppState :=
  { currentRoom := .gallery
    galleryArtworks := []
    bedroomArtworks := []
    draggedArtwork := Option.none
    draggingId := Option.none
    dragOffset := (0, 0) }

/-- A state reachable from the initial state by user-interaction steps. -/
def Reachable (s : AppState) : Prop :=
  Relation.ReflTransGen Step initState s

/-- The ids of a collection. -/
def idsOf (l : List PlacedArtwork) : List String :=
  l.map (fun a => a.art.id)

/-- An id appears in at most one of the two room collections. -/
def roomsDisjoint (s : AppState) : Prop :=
  ∀ i, i ∈ idsOf s.galleryArtworks → i ∉ idsOf s.bedroomArtworks

lemma mem_idsOf_iff_any {l : List PlacedArtwork} {x : String} :
    l.any (fun a => a.art.id == x) = true ↔ x ∈ idsOf l := by
  simp [idsOf, List.any_eq_true]

lemma idsOf_map_id_preserving (l : List PlacedArtwork) (f : PlacedArtwork → PlacedArtwork)
    (h : ∀ a, (f a).art.id = a.art.id) : idsOf (l.map f) = idsOf l := by
  simp only [idsOf, List.map_map]
  exact List.map_congr_left fun a _ => h a

lemma mem_idsOf_filter {l : List PlacedArtwork} {p : PlacedArtwork → Bool} {i : String}
    (h : i ∈ idsOf (l.filter p)) : i ∈ idsOf l := by
  simp only [idsOf, List.mem_map, List.mem_filter] at h ⊢
  obtain ⟨a, ⟨ha, _⟩, rfl⟩ := h
  exact ⟨a, ha, rfl⟩

lemma roomsDisjoint_of_ids_subset {s t : AppState}
    (hg : ∀ i, i ∈ idsOf t.galleryArtworks → i ∈ idsOf s.galleryArtworks)
    (hb : ∀ i, i ∈ idsOf t.bedroomArtworks → i ∈ idsOf s.bedroomArtworks)
    (h : roomsDisjoint s) : roomsDisjoint t :=
  fun i hi hib => h i (hg i hi) (hb i hib)

lemma setPlacedArtworks_map_ids (s : AppState) (f : PlacedArtwork → PlacedArtwork)
    (hf : ∀ a, (f a).art.id = a.art.id) :
    idsOf (s.setPlacedArtworks (s.placedArtworks.map f)).galleryArtworks
        = idsOf s.galleryArtworks ∧
    idsOf (s.setPlacedArtworks (s.placedArtworks.map f)).bedroomArtworks
        = idsOf s.bedroomArtworks := by
  cases hr : s.currentRoom <;>
    simp [AppState.setPlacedArtworks, AppState.placedArtworks, hr,
      idsOf_map_id_preserving _ f hf]

lemma roomsDisjoint_setMap (s : AppState) (f : PlacedArtwork → PlacedArtwork)
    (hf : ∀ a, (f a).art.id = a.art.id) (h : roomsDisjoint s) :
    roomsDisjoint (s.setPlacedArtworks (s.placedArtworks.map f)) := by
  obtain ⟨hg, hb⟩ := setPlacedArtworks_map_ids s f hf
  exact roomsDisjoint_of_ids_subset (fun i hi => hg ▸ hi) (fun i hi => hb ▸ hi) h

lemma roomsDisjoint_setFilter (s : AppState) (p : PlacedArtwork → Bool)
    (h : roomsDisjoint s) :
    roomsDisjoint (s.setPlacedArtworks (s.placedArtworks.filter p)) := by
  refine roomsDisjoint_of_ids_subset ?_ ?_ h <;> intro i hi <;>
    cases hr : s.currentRoom <;>
    simp only [AppState.setPlacedArtworks, AppState.placedArtworks, hr] at hi
  · exact mem_idsOf_filter hi
  · exact hi
  · exact hi
  · exact mem_idsOf_filter hi

lemma roomsDisjoint_append (s : AppState) (p : PlacedArtwork)
    (hg : p.art.id ∉ idsOf s.galleryArtworks)
    (hb : p.art.id ∉ idsOf s.bedroomArtworks)
    (h : roomsDisjoint s) :
    roomsDisjoint (s.setPlacedArtworks (s.placedArtworks ++ [p])) := by
  intro i hig hib
  cases hr : s.currentRoom <;>
    simp only [AppState.setPlacedArtworks, AppState.placedArtworks, hr, idsOf,
      List.map_append, List.map_cons, List.map_nil, List.mem_append,
      List.mem_singleton] at hig hib
  · rcases hig with hig | rfl
    · exact h i hig hib
    · exact hb hib
  · rcases hib with hib | rfl
    · exact h i hig hib
    · exact hg hig

lemma roomsDisjoint_clearDragged (t : AppState) (h : roomsDisjoint t) :
    roomsDisjoint { t with draggedArtwork := Option.none } := h

lemma roomsDisjoint_mouseMove (cx cy rt ih : Int) (s : AppState)
    (h : roomsDisjoint s) : roomsDisjoint (handleMouseMove cx cy rt ih s) := by
  cases hd : s.draggingId with
  | none => simpa [handleMouseMove, hd] using h
  | some did =>
    simp only [handleMouseMove, hd]
    exact roomsDisjoint_setMap s _ (fun a => by split <;> rfl) h

lemma roomsDisjoint_setFrame (id : String) (f : Frame) (s : AppState)
    (h : roomsDisjoint s) : roomsDisjoint (setFrame id f s) := by
  have hf : ∀ a : PlacedArtwork,
      (if a.art.id == id then { a with frame := some f } else a).art.id = a.art.id := by
    intro a; split <;> rfl
  refine roomsDisjoint_of_ids_subset ?_ ?_ h <;> intro i hi <;>
    cases hr : s.currentRoom <;>
    simp only [setFrame, hr] at hi
  · rwa [idsOf_map_id_preserving _ _ hf] at hi
  · exact hi
  · exact hi
  · rwa [idsOf_map_id_preserving _ _ hf] at hi

lemma roomsDisjoint_drop (cx cy rl rt ih : Int) (c : String) (ur uw uo : ℚ)
    (s : AppState) (h : roomsDisjoint s) :
    roomsDisjoint (handleDrop cx cy rl rt ih c ur uw uo s) := by
  cases hd : s.draggedArtwork with
  | none => simpa [handleDrop, hd] using h
  | some da =>
    simp only [handleDrop, hd]
    apply roomsDisjoint_clearDragged
    split
    · rename_i hcond
      simp only [Bool.and_eq_true, Bool.not_eq_true'] at hcond
      refine roomsDisjoint_append s _ ?_ ?_ h
      · intro hmem
        have := mem_idsOf_iff_any.mpr hmem
        rw [hcond.1] at this
        exact Bool.false_ne_true this
      · intro hmem
        have := mem_idsOf_iff_any.mpr hmem
        rw [hcond.2] at this
        exact Bool.false_ne_true this
    · exact h

lemma roomsDisjoint_click (a : Artwork) (ih : Int) (c : String) (ur uw uo : ℚ)
    (s : AppState) (h : roomsDisjoint s) :
    roomsDisjoint (clickPlace a ih c ur uw uo s) := by
  simp only [clickPlace]
  split
  · rename_i hcond
    simp only [Bool.and_eq_true, Bool.not_eq_true'] at hcond
    refine roomsDisjoint_append s _ ?_ ?_ h
    · intro hmem
      have := mem_idsOf_iff_any.mpr hmem
      rw [hcond.1] at this
      exact Bool.false_ne_true this
    · intro hmem
      have := mem_idsOf_iff_any.mpr hmem
      rw [hcond.2] at this
      exact Bool.false_ne_true this
  · exact h

lemma step_preserves_roomsDisjoint {s t : AppState} (hst : Step s t)
    (h : roomsDisjoint s) : roomsDisjoint t := by
  cases hst with
  | dragStart a => exact h
  | mouseDown cx cy a => exact h
  | mouseUp => exact h
  | switch => exact h
  | mouseMove cx cy rt ih => exact roomsDisjoint_mouseMove cx cy rt ih s h
  | drop cx cy rl rt ih c ur uw uo => exact roomsDisjoint_drop cx cy rl rt ih c ur uw uo s h
  | click a ih c ur uw uo => exact roomsDisjoint_click a ih c ur uw uo s h
  | remove id => exact roomsDisjoint_setFilter s _ h
  | frame id f => exact roomsDisjoint_setFrame id f s h

lemma reachable_roomsDisjoint {s : AppState} (h : Reachable s) : roomsDisjoint s := by
  induction h with
  | refl => intro i hi; simp [initState, idsOf] at hi
  | tail _ hstep ih2 => exact step_preserves_roomsDisjoint hstep ih2

/-- C1: at every reachable state an artwork id appears in at most one of the
two room collections, and placing an artwork whose id is already present in
either room — by drop or by click — leaves both room collections unchanged. -/
theorem placed_id_unique_and_place_idempotent :
    (∀ s : AppState, Reachable s → roomsDisjoint s) ∧
    (∀ (cx cy rl rt ih : Int) (c : String) (ur uw uo : ℚ) (s : AppState) (da : Artwork),
      s.draggedArtwork = some da →
      da.id ∈ idsOf s.galleryArtworks ∨ da.id ∈ idsOf s.bedroomArtworks →
      (handleDrop cx cy rl rt ih c ur uw uo s).galleryArtworks = s.galleryArtworks ∧
      (handleDrop cx cy rl rt ih c ur uw uo s).bedroomArtworks = s.bedroomArtworks) ∧
    (∀ (a : Artwork) (ih : Int) (c : String) (ur uw uo : ℚ) (s : AppState),
      a.id ∈ idsOf s.galleryArtworks ∨ a.id ∈ idsOf s.bedroomArtworks →
      (clickPlace a ih c ur uw uo s).galleryArtworks = s.galleryArtworks ∧
      (clickPlace a ih c ur uw uo s).bedroomArtworks = s.bedroomArtworks) := by
  refine ⟨fun s h => reachable_roomsDisjoint h, ?_, ?_⟩
  · intro cx cy rl rt ih c ur uw uo s da hd hmem
    have hcond : (!(s.galleryArtworks.any fun a => a.art.id == da.id) &&
        !(s.bedroomArtworks.any fun a => a.art.id == da.id)) = false := by
      rcases hmem with hm | hm
      · simp [mem_idsOf_iff_any.mpr hm]
      · simp [mem_idsOf_iff_any.mpr hm]
    simp [handleDrop, hd, hcond]
  · intro a ih c ur uw uo s hmem
    have hcond : (!(s.galleryArtworks.any fun x => x.art.id == a.id) &&
        !(s.bedroomArtworks.any fun x => x.art.id == a.id)) = false := by
      rcases hmem with hm | hm
      · simp [mem_idsOf_iff_any.mpr hm]
      · simp [mem_idsOf_iff_any.mpr hm]
    simp [clickPlace, hcond]

/-- A concrete catalog artwork used by the witnesses. -/
def aw1 : Artwork :=
  { id := "a1", artist := "artist", title := "title", year := "1900"
    image := "img.png", width := 50, height := 50 }

/-- A concrete placed record for `aw1`. -/
def pw1 : PlacedArtwork := { art := aw1, x := 100, y := 100 }

/-- A concrete state with `aw1` placed in the gallery and also pending as
the dragged artwork. -/
def sW : AppState :=
  { currentRoom := .gallery, galleryArtworks := [pw1], bedroomArtworks := []
    draggedArtwork := some aw1, draggingId := Option.none, dragOffset := (50, 50) }

theorem placed_id_unique_and_place_idempotent_witness :
    roomsDisjoint initState ∧
    ((handleDrop 300 300 0 0 800 "c" 0 0 0 sW).galleryArtworks = sW.galleryArtworks ∧
     (handleDrop 300 300 0 0 800 "c" 0 0 0 sW).bedroomArtworks = sW.bedroomArtworks) ∧
    ((clickPlace aw1 800 "c" 0 0 0 sW).galleryArtworks = sW.galleryArtworks ∧
     (clickPlace aw1 800 "c" 0 0 0 sW).bedroomArtworks = sW.bedroomArtworks) :=
  ⟨placed_id_unique_and_place_idempotent.1 initState Relation.ReflTransGen.refl,
   placed_id_unique_and_place_idempotent.2.1 300 300 0 0 800 "c" 0 0 0 sW aw1 rfl
     (Or.inl (by simp [sW, pw1, idsOf])),
   placed_id_unique_and_place_idempotent.2.2 aw1 800 "c" 0 0 0 sW
     (Or.inl (by simp [sW, pw1, idsOf]))⟩

lemma placed_setPlaced (s : AppState) (l : List PlacedArtwork) :
    (s.setPlacedArtworks l).placedArtworks = l := by
  cases hr : s.currentRoom <;>
    simp [AppState.setPlacedArtworks, AppState.placedArtworks, hr]

lemma setPlaced_self (s : AppState) : s.setPlacedArtworks s.placedArtworks = s := by
  cases hr : s.currentRoom <;>
    simp [AppState.setPlacedArtworks, AppState.placedArtworks, hr] <;>
    rw [← hr]

lemma placed_clearDragged (t : AppState) :
    ({ t with draggedArtwork := Option.none } : AppState).placedArtworks = t.placedArtworks :=
  rfl

lemma mouseMove_update (cx cy rt ih : Int) (s : AppState) (did : String) (a : PlacedArtwork)
    (hd : s.draggingId = some did)
    (hf : s.placedArtworks.find? (fun p => p.art.id == did) = some a) :
    ∀ b ∈ (handleMouseMove cx cy rt ih s).placedArtworks, b.art.id = did →
      b.x = max 0 (cx - s.dragOffset.1) ∧
      b.y = min (max 0 (cy - s.dragOffset.2 - rt))
        (ih - 60 - furnitureHeight s.currentRoom - a.art.height * 4) := by
  intro b hb hbid
  simp only [handleMouseMove, hd, hf, placed_setPlaced, List.mem_map] at hb
  obtain ⟨a0, ha0, rfl⟩ := hb
  by_cases hc : (a0.art.id == did) = true
  · constructor <;> simp [hc]
  · exfalso
    rw [if_neg hc] at hbid
    exact hc (beq_iff_eq.mpr hbid)

lemma any_eq_false_of_not_mem {l : List PlacedArtwork} {x : String}
    (h : x ∉ idsOf l) : (l.any fun a => a.art.id == x) = false := by
  rw [Bool.eq_false_iff]
  intro hx
  exact h (mem_idsOf_iff_any.mp hx)

lemma drop_appends (cx cy rl rt ih : Int) (c : String) (ur uw uo : ℚ)
    (s : AppState) (da : Artwork)
    (hd : s.draggedArtwork = some da)
    (hg : da.id ∉ idsOf s.galleryArtworks) (hb : da.id ∉ idsOf s.bedroomArtworks) :
    (handleDrop cx cy rl rt ih c ur uw uo s).placedArtworks =
      s.placedArtworks ++
        [{ art := da
           x := max 0 (cx - rl - s.dragOffset.1)
           y := min (max 0 (cy - rt - s.dragOffset.2))
                 (ih - 60 - furnitureHeight s.currentRoom - da.height * 4)
           washiRotation := some (decide (ur > 1 / 2)), washiColor := some c
           woodTexture := some (randVariant uw)
           ornateVariation := some (randVariant uo) }] := by
  simp only [handleDrop, hd, dropRawPos, any_eq_false_of_not_mem hg,
    any_eq_false_of_not_mem hb, Bool.not_false, Bool.and_self, if_true,
    placed_clearDragged, placed_setPlaced]

lemma click_appends (a : Artwork) (ih : Int) (c : String) (ur uw uo : ℚ)
    (s : AppState)
    (hg : a.id ∉ idsOf s.galleryArtworks) (hb : a.id ∉ idsOf s.bedroomArtworks) :
    (clickPlace a ih c ur uw uo s).placedArtworks =
      s.placedArtworks ++
        [{ art := a, x := 100
           y := min 100 (max 0 (ih - 60 - furnitureHeight s.currentRoom - a.height * 4))
           washiRotation := some (decide (ur > 1 / 2)), washiColor := some c
           woodTexture := some (randVariant uw)
           ornateVariation := some (randVariant uo) }] := by
  simp only [clickPlace, any_eq_false_of_not_mem hg, any_eq_false_of_not_mem hb,
    Bool.not_false, Bool.and_self, if_true, placed_setPlaced]

lemma randVariant_mem (u : ℚ) (h0 : 0 ≤ u) (h1 : u < 1) :
    randVariant u = 1 ∨ randVariant u = 2 ∨ randVariant u = 3 := by
  unfold randVariant
  have hf0 : 0 ≤ ⌊u * 3⌋ := Int.floor_nonneg.mpr (by positivity)
  have hf3 : ⌊u * 3⌋ < 3 := by
    rw [Int.floor_lt]
    push_cast
    linarith
  omega

/-- C9: the drag offset recorded by `handleDragStart` is the constant
(50, 50) regardless of grab point, so the pre-clamp drop position is
(pointerX − canvasLeft − 50, pointerY − canvasTop − 50). -/
theorem catalog_drag_offset_constant :
    (∀ (a : Artwork) (s : AppState), (handleDragStart a s).dragOffset = (50, 50)) ∧
    (∀ (cx cy rl rt : Int) (a : Artwork) (s : AppState),
      dropRawPos cx cy rl rt (handleDragStart a s).dragOffset =
        (cx - rl - 50, cy - rt - 50)) :=
  ⟨fun _ _ => rfl, fun _ _ _ _ _ _ => rfl⟩

lemma getRandomWashiColor_mkRgba (u : ℚ) :
    ∃ nr ng nb : Nat, getRandomWashiColor u = mkRgba nr ng nb :=
  ⟨_, _, _, rfl⟩

lemma sampledWashiColor_mkRgba (r g b : Nat) (u : ℚ) :
    ∃ nr ng nb : Nat, sampledWashiColor r g b u = mkRgba nr ng nb := by
  unfold sampledWashiColor
  split
  · exact getRandomWashiColor_mkRgba u
  · split
    · exact ⟨_, _, _, rfl⟩
    · split
      · exact ⟨_, _, _, rfl⟩
      · exact ⟨_, _, _, rfl⟩

/-- C4: the tape-color derivation resolves to exactly one color string on
every fetch outcome: decode error, missing 2D context and blocked pixel
read all resolve to a random palette color, a too-gray sample also falls
back to the palette, and every outcome yields an rgba string. -/
theorem getImageColor_total_fallbacks :
    ∀ u : ℚ,
      getImageColor .decodeError u = getRandomWashiColor u ∧
      getImageColor .ctxUnavailable u = getRandomWashiColor u ∧
      getImageColor .pixelBlocked u = getRandomWashiColor u ∧
      (∀ r g b : Nat, saturationOf r g b < 3 / 10 →
        getImageColor (.pixel r g b) u = getRandomWashiColor u) ∧
      (∀ f : ImageFetch, ∃ nr ng nb : Nat, getImageColor f u = mkRgba nr ng nb) := by
  intro u
  refine ⟨rfl, rfl, rfl, ?_, ?_⟩
  · intro r g b hsat
    simp only [getImageColor, sampledWashiColor, if_pos hsat]
  · intro f
    cases f with
    | decodeError => exact getRandomWashiColor_mkRgba u
    | ctxUnavailable => exact getRandomWashiColor_mkRgba u
    | pixelBlocked => exact getRandomWashiColor_mkRgba u
    | pixel r g b => exact sampledWashiColor_mkRgba r g b u

theorem getImageColor_total_fallbacks_witness :
    getImageColor (.pixel 100 100 100) 0 = getRandomWashiColor 0 :=
  (getImageColor_total_fallbacks 0).2.2.2.1 100 100 100 (by
    norm_num [saturationOf])

/-- A concrete placed artwork mid-drag: `aw1` placed at (100, 100) in the
gallery with recorded drag offset (10, 10). -/
def sDrag : AppState :=
  { currentRoom := .gallery, galleryArtworks := [pw1], bedroomArtworks := []
    draggedArtwork := Option.none, draggingId := some "a1", dragOffset := (10, 10) }

/-- C5: a mouse-move with no active drag target leaves the state (hence both
room collections) unchanged; with an active drag, the new position is the
pointer minus the recorded offset, clamped — dragging `aw1` placed at
(100, 100) with offset (10, 10) to pointer (300, 300) yields (290, 290)
when within bounds. -/
theorem updateDrag_noop_and_offset :
    (∀ (cx cy rt ih : Int) (s : AppState), s.draggingId = Option.none →
      handleMouseMove cx cy rt ih s = s) ∧
    ((handleMouseMove 300 300 0 1000 sDrag).galleryArtworks =
      [{ pw1 with x := 290, y := 290 }]) := by
  constructor
  · intro cx cy rt ih s hd
    simp only [handleMouseMove, hd]
  · rfl

theorem updateDrag_noop_and_offset_witness :
    handleMouseMove 1 2 3 4 initState = initState :=
  updateDrag_noop_and_offset.1 1 2 3 4 initState rfl

/-- The decorative seed attributes of a placed record (with its id):
tape rotation, tape color, wood variant, ornate variant. -/
def seedOf (p : PlacedArtwork) :
    String × Option Bool × Option String × Option Int × Option Int :=
  (p.art.id, p.washiRotation, p.washiColor, p.woodTexture, p.ornateVariation)

lemma seeds_map_preserving (l : List PlacedArtwork) (f : PlacedArtwork → PlacedArtwork)
    (h : ∀ a, seedOf (f a) = seedOf a) : (l.map f).map seedOf = l.map seedOf := by
  simp only [List.map_map]
  exact List.map_congr_left fun a _ => h a

lemma setPlaced_map_seeds (s : AppState) (f : PlacedArtwork → PlacedArtwork)
    (hf : ∀ a, seedOf (f a) = seedOf a) :
    (s.setPlacedArtworks (s.placedArtworks.map f)).galleryArtworks.map seedOf
        = s.galleryArtworks.map seedOf ∧
    (s.setPlacedArtworks (s.placedArtworks.map f)).bedroomArtworks.map seedOf
        = s.bedroomArtworks.map seedOf := by
  cases hr : s.currentRoom <;>
    simp [AppState.setPlacedArtworks, AppState.placedArtworks, hr,
      seeds_map_preserving _ f hf]

/-- C6: the decorative seed attributes (tape rotation, tape color, wood
variant, ornate variant) of every placed record are unchanged by every drag
update and by every frame change; placing after removal appends a record
whose seeds are exactly the freshly supplied random draws. -/
theorem decorative_seeds_frozen :
    (∀ (cx cy rt ih : Int) (s : AppState),
      (handleMouseMove cx cy rt ih s).galleryArtworks.map seedOf
          = s.galleryArtworks.map seedOf ∧
      (handleMouseMove cx cy rt ih s).bedroomArtworks.map seedOf
          = s.bedroomArtworks.map seedOf) ∧
    (∀ (id : String) (f : Frame) (s : AppState),
      (setFrame id f s).galleryArtworks.map seedOf = s.galleryArtworks.map seedOf ∧
      (setFrame id f s).bedroomArtworks.map seedOf = s.bedroomArtworks.map seedOf) ∧
    (∀ (a : Artwork) (ih : Int) (c : String) (ur uw uo : ℚ) (s : AppState),
      a.id ∉ idsOf s.galleryArtworks → a.id ∉ idsOf s.bedroomArtworks →
      (clickPlace a ih c ur uw uo s).placedArtworks =
        s.placedArtworks ++
          [{ art := a, x := 100
             y := min 100 (max 0 (ih - 60 - furnitureHeight s.currentRoom - a.height * 4))
             washiRotation := some (decide (ur > 1 / 2)), washiColor := some c
             woodTexture := some (randVariant uw)
             ornateVariation := some (randVariant uo) }]) := by
  refine ⟨?_, ?_, fun a ih c ur uw uo s hg hb => click_appends a ih c ur uw uo s hg hb⟩
  · intro cx cy rt ih s
    cases hd : s.draggingId with
    | none => simp [handleMouseMove, hd]
    | some did =>
      simp only [handleMouseMove, hd]
      exact setPlaced_map_seeds s _ (fun a => by unfold seedOf; split <;> rfl)
  · intro id f s
    have hf : ∀ a : PlacedArtwork,
        seedOf (if a.art.id == id then { a with frame := some f } else a) = seedOf a := by
      intro a; unfold seedOf; split <;> rfl
    cases hr : s.currentRoom <;>
      simp [setFrame, hr, seeds_map_preserving _ _ hf] <;>
      intro a _ <;> split <;> rfl

theorem decorative_seeds_frozen_witness :
    (clickPlace aw1 800 "c" 0 0 0 initState).placedArtworks =
      initState.placedArtworks ++
        [{ art := aw1, x := 100
           y := min 100 (max 0 (800 - 60 - furnitureHeight initState.currentRoom
                  - aw1.height * 4))
           washiRotation := some (decide ((0 : ℚ) > 1 / 2)), washiColor := some "c"
           woodTexture := some (randVariant 0)
           ornateVariation := some (randVariant 0) }] :=
  decorative_seeds_frozen.2.2 aw1 800 "c" 0 0 0 initState
    (by simp [initState, idsOf]) (by simp [initState, idsOf])

lemma filter_id_eq_self {l : List PlacedArtwork} {id : String}
    (h : id ∉ idsOf l) : (l.filter fun a => a.art.id != id) = l := by
  rw [List.filter_eq_self]
  intro a ha
  simp only [bne_iff_ne, ne_eq]
  intro hEq
  exact h (by simpa [idsOf, List.mem_map] using ⟨a, ha, hEq⟩)

/-- C7: removing an id not present in the active room's collection leaves it
unchanged (indeed the whole state); removing a present id deletes exactly
the record bearing that id, keeping every other record in order. -/
theorem removeArtwork_correct :
    (∀ (id : String) (s : AppState), id ∉ idsOf s.placedArtworks →
      removeArtwork id s = s) ∧
    (∀ (id : String) (s : AppState) (l1 l2 : List PlacedArtwork) (p : PlacedArtwork),
      s.placedArtworks = l1 ++ p :: l2 → p.art.id = id →
      id ∉ idsOf l1 → id ∉ idsOf l2 →
      (removeArtwork id s).placedArtworks = l1 ++ l2) := by
  constructor
  · intro id s h
    rw [removeArtwork, filter_id_eq_self h, setPlaced_self]
  · intro id s l1 l2 p hl hp h1 h2
    rw [removeArtwork, placed_setPlaced, hl, List.filter_append]
    have hq : (p.art.id != id) = false := by simp [hp]
    rw [List.filter_cons, hq]
    simp only [Bool.false_eq_true, if_false]
    rw [filter_id_eq_self h1, filter_id_eq_self h2]

theorem removeArtwork_correct_witness :
    removeArtwork "zz" sDrag = sDrag ∧
    (removeArtwork "a1" sDrag).placedArtworks = ([] : List PlacedArtwork) ++ [] :=
  ⟨removeArtwork_correct.1 "zz" sDrag (by simp [sDrag, pw1, aw1, idsOf,
      AppState.placedArtworks]),
   removeArtwork_correct.2 "a1" sDrag [] [] pw1 rfl rfl
     (by simp [idsOf]) (by simp [idsOf])⟩

/-- C8: clicking an unplaced 50×50 catalog artwork in the gallery with
canvas height 800 appends exactly one record to the gallery collection,
at x = 100 with y ≤ 580 − renderedHeight, frame unset, and wood and ornate
variants each in {1, 2, 3}. -/
theorem click_scenario_gallery :
    ∀ (a : Artwork) (c : String) (ur uw uo : ℚ) (s : AppState),
      a.width = 50 → a.height = 50 →
      s.currentRoom = .gallery →
      a.id ∉ idsOf s.galleryArtworks → a.id ∉ idsOf s.bedroomArtworks →
      0 ≤ uw → uw < 1 → 0 ≤ uo → uo < 1 →
      ∃ rec : PlacedArtwork,
        (clickPlace a 800 c ur uw uo s).galleryArtworks = s.galleryArtworks ++ [rec] ∧
        rec.x = 100 ∧ rec.y ≤ 580 - a.height * 4 ∧ rec.frame = Option.none ∧
        (rec.woodTexture = some 1 ∨ rec.woodTexture = some 2 ∨ rec.woodTexture = some 3) ∧
        (rec.ornateVariation = some 1 ∨ rec.ornateVariation = some 2 ∨
          rec.ornateVariation = some 3) := by
  intro a c ur uw uo s hw hh hr hg hb hw0 hw1 ho0 ho1
  have happ := click_appends a 800 c ur uw uo s hg hb
  have hset : (clickPlace a 800 c ur uw uo s).currentRoom = .gallery := by
    simp only [clickPlace, any_eq_false_of_not_mem hg, any_eq_false_of_not_mem hb,
      Bool.not_false, Bool.and_self, if_true]
    cases hcr : s.currentRoom
    · simp [AppState.setPlacedArtworks, hcr]
    · rw [hcr] at hr; exact absurd hr (by simp)
  refine ⟨{ art := a, x := 100
            y := min 100 (max 0 (800 - 60 - furnitureHeight s.currentRoom - a.height * 4))
            washiRotation := some (decide (ur > 1 / 2)), washiColor := some c
            woodTexture := some (randVariant uw)
            ornateVariation := some (randVariant uo) }, ?_, rfl, ?_, rfl, ?_, ?_⟩
  · have h1 : (clickPlace a 800 c ur uw uo s).placedArtworks
        = (clickPlace a 800 c ur uw uo s).galleryArtworks := by
      simp only [AppState.placedArtworks, hset]
    have h2 : s.placedArtworks = s.galleryArtworks := by
      simp only [AppState.placedArtworks, hr]
    rw [← h1, happ, h2]
  · simp only [hh, hr, furnitureHeight]
    norm_num
  · rcases randVariant_mem uw hw0 hw1 with h | h | h <;> simp [h]
  · rcases randVariant_mem uo ho0 ho1 with h | h | h <;> simp [h]

theorem click_scenario_gallery_witness :
    ∃ rec : PlacedArtwork,
      (clickPlace aw1 800 "c" 0 (1/2) (1/3) initState).galleryArtworks =
        initState.galleryArtworks ++ [rec] ∧
      rec.x = 100 ∧ rec.y ≤ 580 - aw1.height * 4 ∧ rec.frame = Option.none ∧
      (rec.woodTexture = some 1 ∨ rec.woodTexture = some 2 ∨ rec.woodTexture = some 3) ∧
      (rec.ornateVariation = some 1 ∨ rec.ornateVariation = some 2 ∨
        rec.ornateVariation = some 3) :=
  click_scenario_gallery aw1 "c" 0 (1/2) (1/3) initState rfl rfl rfl
    (by simp [initState, idsOf]) (by simp [initState, idsOf])
    (by norm_num) (by norm_num) (by norm_num) (by norm_num)

/-- C10: every tape color the app produces is an rgba string with alpha
exactly 0.8 (the `mkRgba` template), and in the saturated-sample branch
every output channel lies in [140, 255] with the dominant (largest) output
channel in [200, 255]. -/
theorem tape_color_bright :
    (∀ (f : ImageFetch) (u : ℚ), ∃ nr ng nb : Nat,
      getImageColor f u = mkRgba nr ng nb) ∧
    (∀ (r g b : Nat) (u : ℚ), ¬ saturationOf r g b < 3 / 10 →
      ∃ nr ng nb : Nat, sampledWashiColor r g b u = mkRgba nr ng nb ∧
        140 ≤ nr ∧ nr ≤ 255 ∧ 140 ≤ ng ∧ ng ≤ 255 ∧ 140 ≤ nb ∧ nb ≤ 255 ∧
        200 ≤ max nr (max ng nb) ∧ max nr (max ng nb) ≤ 255) := by
  constructor
  · intro f u
    cases f with
    | decodeError => exact getRandomWashiColor_mkRgba u
    | ctxUnavailable => exact getRandomWashiColor_mkRgba u
    | pixelBlocked => exact getRandomWashiColor_mkRgba u
    | pixel r g b => exact sampledWashiColor_mkRgba r g b u
  · intro r g b u hsat
    unfold sampledWashiColor
    rw [if_neg hsat]
    split
    · exact ⟨_, _, _, rfl, by omega, by omega, by omega, by omega, by omega,
        by omega, by omega, by omega⟩
    · split
      · exact ⟨_, _, _, rfl, by omega, by omega, by omega, by omega, by omega,
          by omega, by omega, by omega⟩
      · exact ⟨_, _, _, rfl, by omega, by omega, by omega, by omega, by omega,
          by omega, by omega, by omega⟩

theorem tape_color_bright_witness :
    ∃ nr ng nb : Nat, sampledWashiColor 255 0 0 0 = mkRgba nr ng nb ∧
      140 ≤ nr ∧ nr ≤ 255 ∧ 140 ≤ ng ∧ ng ≤ 255 ∧ 140 ≤ nb ∧ nb ≤ 255 ∧
      200 ≤ max nr (max ng nb) ∧ max nr (max ng nb) ≤ 255 :=
  tape_color_bright.2 255 0 0 0 (by norm_num [saturationOf])

/-- A tall catalog artwork: rendered height 200 × 4 = 800 exceeds the
gallery band 800 − 60 − 160 = 580, so maxY = −220. -/
def awTall : Artwork :=
  { id := "t1", artist := "artist", title := "tall", year := "1900"
    image := "tall.png", width := 50, height := 200 }

/-- The tall artwork placed at the origin. -/
def pwTall : PlacedArtwork := { art := awTall, x := 0, y := 0 }

/-- Mid-drag state for the tall artwork in the gallery. -/
def sTall : AppState :=
  { currentRoom := .gallery, galleryArtworks := [pwTall], bedroomArtworks := []
    draggedArtwork := Option.none, draggingId := some "t1", dragOffset := (0, 0) }

/-- Pending-drop state for the tall artwork in the gallery. -/
def sTallDrop : AppState :=
  { currentRoom := .gallery, galleryArtworks := [], bedroomArtworks := []
    draggedArtwork := some awTall, draggingId := Option.none, dragOffset := (0, 0) }

/-- C2 fails as stated: dragging the tall artwork (rendered height 800,
canvas height 800, gallery) to pointer (5, 5) writes back y = −220 < 0,
because `Math.min(y, maxY)` is applied after `Math.max(0, y)`. -/
theorem drag_clamp_bounds_cex :
    (handleMouseMove 5 5 0 800 sTall).galleryArtworks =
      [{ pwTall with x := 5, y := -220 }] ∧ (-220 : Int) < 0 :=
  ⟨rfl, by norm_num⟩

/-- C2 (amended): during an active drag on a found artwork the written-back
position always satisfies 0 ≤ x and y ≤ maxY (maxY = canvasHeight − 60 −
furnitureHeight − height·4), and 0 ≤ y whenever maxY ≥ 0; a drop that
appends satisfies the same bounds. -/
theorem drag_clamp_bounds :
    (∀ (cx cy rt ih : Int) (s : AppState) (did : String) (a : PlacedArtwork),
      s.draggingId = some did →
      s.placedArtworks.find? (fun p => p.art.id == did) = some a →
      ∀ b ∈ (handleMouseMove cx cy rt ih s).placedArtworks, b.art.id = did →
        0 ≤ b.x ∧
        b.y ≤ ih - 60 - furnitureHeight s.currentRoom - a.art.height * 4 ∧
        (0 ≤ ih - 60 - furnitureHeight s.currentRoom - a.art.height * 4 →
          0 ≤ b.y)) ∧
    (∀ (cx cy rl rt ih : Int) (c : String) (ur uw uo : ℚ) (s : AppState) (da : Artwork),
      s.draggedArtwork = some da →
      da.id ∉ idsOf s.galleryArtworks → da.id ∉ idsOf s.bedroomArtworks →
      ∃ rec : PlacedArtwork,
        (handleDrop cx cy rl rt ih c ur uw uo s).placedArtworks =
          s.placedArtworks ++ [rec] ∧
        0 ≤ rec.x ∧
        rec.y ≤ ih - 60 - furnitureHeight s.currentRoom - da.height * 4 ∧
        (0 ≤ ih - 60 - furnitureHeight s.currentRoom - da.height * 4 →
          0 ≤ rec.y)) := by
  constructor
  · intro cx cy rt ih s did a hd hf b hb hbid
    obtain ⟨hx, hy⟩ := mouseMove_update cx cy rt ih s did a hd hf b hb hbid
    refine ⟨?_, ?_, ?_⟩ <;> omega
  · intro cx cy rl rt ih c ur uw uo s da hd hg hb
    refine ⟨_, drop_appends cx cy rl rt ih c ur uw uo s da hd hg hb, ?_, ?_, ?_⟩ <;>
      simp only [] <;> omega

theorem drag_clamp_bounds_witness :
    0 ≤ ({ pw1 with x := 290, y := 290 } : PlacedArtwork).x ∧
    ({ pw1 with x := 290, y := 290 } : PlacedArtwork).y ≤
      1000 - 60 - furnitureHeight sDrag.currentRoom - pw1.art.height * 4 ∧
    (0 ≤ 1000 - 60 - furnitureHeight sDrag.currentRoom - pw1.art.height * 4 →
      0 ≤ ({ pw1 with x := 290, y := 290 } : PlacedArtwork).y) :=
  drag_clamp_bounds.1 300 300 0 1000 sDrag "a1" pw1 rfl rfl
    { pw1 with x := 290, y := 290 } (by decide) rfl

/-- C3 fails as stated: dropping the tall artwork (rendered height 800,
canvas height 800, gallery) at pointer (5, 5) appends a record with
y = −220 < 0: the negative upper bound wins, not the minimum bound 0. -/
theorem clamp_degenerate_cex :
    (handleDrop 5 5 0 0 800 "c" 0 0 0 sTallDrop).galleryArtworks =
      [{ art := awTall, x := 5, y := -220
         washiRotation := some (decide ((0 : ℚ) > 1 / 2)), washiColor := some "c"
         woodTexture := some (randVariant 0)
         ornateVariation := some (randVariant 0) }] ∧
    (-220 : Int) < 0 :=
  ⟨rfl, by norm_num⟩

/-- C3 (amended): x is clamped to ≥ 0 on every placement and drag path, and
the click-placement path keeps y ≥ 0 even in the degenerate case; but on
the drag and drop paths, when the rendered height exceeds the available
band (maxY ≤ 0) the written y equals the negative upper bound maxY rather
than 0; every operation is total and completes. -/
theorem clamp_degenerate_policy :
    (∀ (cx cy rt ih : Int) (s : AppState) (did : String) (a : PlacedArtwork),
      s.draggingId = some did →
      s.placedArtworks.find? (fun p => p.art.id == did) = some a →
      ∀ b ∈ (handleMouseMove cx cy rt ih s).placedArtworks, b.art.id = did →
        0 ≤ b.x ∧
        (ih - 60 - furnitureHeight s.currentRoom - a.art.height * 4 ≤ 0 →
          b.y = ih - 60 - furnitureHeight s.currentRoom - a.art.height * 4)) ∧
    (∀ (cx cy rl rt ih : Int) (c : String) (ur uw uo : ℚ) (s : AppState) (da : Artwork),
      s.draggedArtwork = some da →
      da.id ∉ idsOf s.galleryArtworks → da.id ∉ idsOf s.bedroomArtworks →
      ∃ rec : PlacedArtwork,
        (handleDrop cx cy rl rt ih c ur uw uo s).placedArtworks =
          s.placedArtworks ++ [rec] ∧
        0 ≤ rec.x ∧
        (ih - 60 - furnitureHeight s.currentRoom - da.height * 4 ≤ 0 →
          rec.y = ih - 60 - furnitureHeight s.currentRoom - da.height * 4)) ∧
    (∀ (a : Artwork) (ih : Int) (c : String) (ur uw uo : ℚ) (s : AppState),
      a.id ∉ idsOf s.galleryArtworks → a.id ∉ idsOf s.bedroomArtworks →
      ∃ rec : PlacedArtwork,
        (clickPlace a ih c ur uw uo s).placedArtworks =
          s.placedArtworks ++ [rec] ∧
        rec.x = 100 ∧ 0 ≤ rec.y) := by
  refine ⟨?_, ?_, ?_⟩
  · intro cx cy rt ih s did a hd hf b hb hbid
    obtain ⟨hx, hy⟩ := mouseMove_update cx cy rt ih s did a hd hf b hb hbid
    constructor
    · rw [hx]; omega
    · rw [hy]; omega
  · intro cx cy rl rt ih c ur uw uo s da hd hg hb
    refine ⟨_, drop_appends cx cy rl rt ih c ur uw uo s da hd hg hb, ?_, ?_⟩ <;>
      simp only [] <;> omega
  · intro a ih c ur uw uo s hg hb
    refine ⟨_, click_appends a ih c ur uw uo s hg hb, rfl, ?_⟩
    simp only []
    omega

theorem clamp_degenerate_policy_witness :
    ∃ rec : PlacedArtwork,
      (clickPlace awTall 800 "c" 0 0 0 initState).placedArtworks =
        initState.placedArtworks ++ [rec] ∧
      rec.x = 100 ∧ 0 ≤ rec.y :=
  clamp_degenerate_policy.2.2 awTall 800 "c" 0 0 0 initState
    (by simp [initState, idsOf]) (by simp [initState, idsOf])
